import Mathlib

/-!
Verification of the KPI report-analysis engine against its specification.

The definitions below are shallow embeddings of the Python sources:
  * `src/utils/scoring.py`        — risk scoring (RiskScorer and friends)
  * `src/analyzers/veeam_backup_analyzer.py`
        — fuzzy matching, schema mapping, date-format detection,
          per-VM timeline-gap analysis
  * `src/core/report_detector.py` — multi-stage report-type detection

Modelling conventions:
  * Python floats are modelled as exact rationals (`ℚ`);
  * Python strings are modelled as `String` / `List Char`; `str.lower`
    is modelled for ASCII letters (all strings appearing in the
    analysed code paths are ASCII, where Unicode NFD decomposition and
    combining-mark removal are the identity);
  * Python lists/dicts are modelled as `List` / association lists
    (Python dicts iterate in insertion order, as does a `List`);
  * a `try:`-block whose `except:` returns a fixed fallback is modelled
    by making each failing operation return that fallback explicitly.
-/

/-! ## Basic string helpers (Python `str` operations) -/

/-- Python whitespace characters relevant to `str.strip()` / `str.split()`. -/
def isPyWs (c : Char) : Bool :=
  c == ' ' || c == '\t' || c == '\n' || c == '\r'

/-- Strip leading and trailing whitespace (Python `str.strip()`). -/
def trimWs (l : List Char) : List Char :=
  ((l.dropWhile isPyWs).reverse.dropWhile isPyWs).reverse

/-- ASCII lowercase of one character (Python `str.lower()` restricted to ASCII). -/
def asciiLower (c : Char) : Char :=
  if c.toNat ≥ 65 && c.toNat ≤ 90 then Char.ofNat (c.toNat + 32) else c

/-- Python `str.strip()` on a `String`. -/
def stripStr (s : String) : String :=
  String.mk (trimWs s.toList)

/-- Python `str.lower()` on a `String` (ASCII model). -/
def lowerStr (s : String) : String :=
  String.mk (s.toList.map asciiLower)

/-- Substring test on character lists (Python `needle in hay`). -/
def listContains (hay needle : List Char) : Bool :=
  hay.tails.any (fun t => needle.isPrefixOf t)

/-- Substring test on strings (Python `needle in hay`). -/
def strContains (hay needle : String) : Bool :=
  listContains hay.toList needle.toList

/-- Numeric value of a digit string (most significant digit first). -/
def natOfDigits (l : List Char) : ℕ :=
  l.foldl (fun acc c => acc * 10 + (c.toNat - 48)) 0

/-- Python `int(s)`: optional surrounding whitespace, optional sign, digits.
(Underscore separators and non-ASCII digits are not modelled; no date
component in the analysed code uses them.) -/
def parseIntPy (s : List Char) : Option ℤ :=
  let l := trimWs s
  match l with
  | '+' :: rest =>
      if !rest.isEmpty && rest.all Char.isDigit then some (natOfDigits rest) else none
  | '-' :: rest =>
      if !rest.isEmpty && rest.all Char.isDigit then some (-(natOfDigits rest : ℤ)) else none
  | rest =>
      if !rest.isEmpty && rest.all Char.isDigit then some (natOfDigits rest) else none

/-- Python `float(s)` for plain decimal literals: optional whitespace, optional
sign, integer part, optional fractional part.  (Exponents, `inf`, `nan` are not
modelled; scoring-rule conditions only use plain decimals.) -/
def parseFloatPy (s : String) : Option ℚ :=
  let l := trimWs s.toList
  let sign : ℚ × List Char :=
    match l with
    | '+' :: r => (1, r)
    | '-' :: r => (-1, r)
    | r => (1, r)
  let ip := sign.2.takeWhile Char.isDigit
  let rest := sign.2.drop ip.length
  match rest with
  | [] => if ip.isEmpty then none else some (sign.1 * natOfDigits ip)
  | '.' :: fr =>
      if fr.all Char.isDigit && !(ip.isEmpty && fr.isEmpty) then
        some (sign.1 * ((natOfDigits ip : ℚ) + (natOfDigits fr : ℚ) / (10 ^ fr.length)))
      else none
  | _ => none

/-- Python `int(x)` on a number: truncation toward zero. -/
def pyTruncInt (q : ℚ) : ℤ :=
  if 0 ≤ q then ⌊q⌋ else ⌈q⌉

/-- Python `min(a, b)` (returns the first argument on ties). -/
def pyMin (a b : ℚ) : ℚ :=
  if a ≤ b then a else b

/-- Python `max(a, b)` (returns the first argument on ties). -/
def pyMax (a b : ℚ) : ℚ :=
  if b ≤ a then a else b

/-- Splitting a character list on a (non-empty) separator list, Python
`str.split(sep)`: non-overlapping occurrences scanned left to right. -/
def splitOnListGo (sep : List Char) : ℕ → List Char → List Char → List (List Char)
  | 0, _, cur => [cur.reverse]
  | fuel + 1, l, cur =>
      match l with
      | [] => [cur.reverse]
      | c :: rest =>
          if sep.isPrefixOf l then
            cur.reverse :: splitOnListGo sep fuel (l.drop sep.length) []
          else
            splitOnListGo sep fuel rest (c :: cur)

/-- Python `s.split(sep)` on strings (`sep` non-empty). -/
def pySplit (s sep : String) : List String :=
  (splitOnListGo sep.toList s.toList.length s.toList []).map String.mk

/-! ## Data model of `src/utils/scoring.py` -/

/-- Risk level enumeration (`RiskLevel` in `scoring.py`). -/
inductive RiskLevel where
  | LOW
  | MEDIUM
  | HIGH
  | CRITICAL
deriving DecidableEq, Repr

/-- Analysis status enumeration (`Status` in `scoring.py`). -/
inductive Status where
  | OK
  | WITH_LIMITATIONS
  | ERROR
  | NOT_ANALYZED
  | NOT_APPLICABLE
deriving DecidableEq, Repr

/-- Result of a single check (`CheckResult` dataclass).  The free-form
`details` mapping is not modelled; no analysed code path reads it. -/
structure CheckResult where
  check_id : String
  name : String
  passed : Bool
  severity : String
  message : Option String := none
  points_deducted : ℚ := 0
deriving DecidableEq, Repr

/-- A value of Python's extracted-data dict: a number or a string. -/
inductive PyVal where
  | num (q : ℚ)
  | str (s : String)
deriving DecidableEq, Repr

/-- Python `float(x)` applied to an extracted-data value (raises, i.e. `none`,
on an unparseable string). -/
def floatOfPyVal : PyVal → Option ℚ
  | .num q => some q
  | .str s => parseFloatPy s

/-- Python `str(x)` applied to an extracted-data value.  For non-integral
numbers Python renders the shortest float repr; this is approximated by the
rational's own rendering and is not load-bearing for any theorem. -/
def pyStrOfVal : PyVal → String
  | .str s => s
  | .num q => if q.den = 1 then toString q.num else toString q

/-- Extracted data (`extracted_data` dict), keys in insertion order. -/
def ExtractedData := List (String × PyVal)

/-- Python `data[field]` / `field in data`. -/
def lookupData (d : ExtractedData) (k : String) : Option PyVal :=
  (List.find? (fun p => p.1 == k) d).map (·.2)

/-- Strip surrounding single/double quotes (Python `value.strip('"\x27')`). -/
def stripQuotes (l : List Char) : List Char :=
  ((l.dropWhile (fun c => c == '"' || c == '\'')).reverse.dropWhile
    (fun c => c == '"' || c == '\'')).reverse

/-- The `"=="` block of `RiskScorer._evaluate_condition` (reached when the
`">"` and `"<"` blocks did not return). -/
def condEQ (condition : String) (data : ExtractedData) : ℤ :=
  if strContains condition "==" then
    match pySplit condition "==" with
    | [f, v] =>
        let v' := String.mk (stripQuotes (trimWs v.toList))
        match lookupData data (stripStr f) with
        | some pv => if pyStrOfVal pv == v' then 1 else 0
        | none => 0
    | _ => 0
  else 0

/-- The `"<"` block of `RiskScorer._evaluate_condition`; falls through to the
`"=="` block when the field is absent, and returns 0 (the caught-exception
path) when the split or the float parse fails. -/
def condLT (condition : String) (data : ExtractedData) : ℤ :=
  if strContains condition "<" then
    match pySplit condition "<" with
    | [f, v] =>
        match parseFloatPy v with
        | none => 0
        | some vq =>
            match lookupData data (stripStr f) with
            | some pv =>
                match floatOfPyVal pv with
                | none => 0
                | some fv => if fv < vq then pyTruncInt fv else 0
            | none => condEQ condition data
    | _ => 0
  else condEQ condition data

/-- The `">"` block of `RiskScorer._evaluate_condition`; falls through to the
`"<"` block when the field is absent. -/
def condGT (condition : String) (data : ExtractedData) : ℤ :=
  if strContains condition ">" then
    match pySplit condition ">" with
    | [f, v] =>
        match parseFloatPy v with
        | none => 0
        | some vq =>
            match lookupData data (stripStr f) with
            | some pv =>
                match floatOfPyVal pv with
                | none => 0
                | some fv => if vq < fv then pyTruncInt fv else 0
            | none => condLT condition data
    | _ => 0
  else condLT condition data

/-- `RiskScorer._evaluate_condition`: number of occurrences for a condition
string (0 when false / unevaluable). -/
def evaluateCondition (condition : String) (checks : List CheckResult)
    (data : ExtractedData) : ℤ :=
  if condition == "missing_required_columns" then
    ((checks.filter (fun c => c.check_id == "completeness" && !c.passed)).length : ℤ)
  else if condition == "data_quality_issues" then
    ((checks.filter (fun c => strContains (lowerStr c.check_id) "quality" && !c.passed)).length : ℤ)
  else if condition == "critical_errors" then
    ((checks.filter (fun c => c.severity == "high" && !c.passed)).length : ℤ)
  else condGT condition data

/-- A configured deduction rule (one entry of `scoring.deductions`).  `none`
for `max_deduction` models the Python default `float('inf')`, `none` for
`condition`/`description` models a missing dict key. -/
structure DeductionRule where
  condition : Option String := none
  description : Option String := none
  points : ℚ := 0
  per_occurrence : Bool := false
  max_deduction : Option ℚ := none
deriving DecidableEq, Repr

/-- `RiskScorer._apply_deduction`: points to deduct for one rule. -/
def applyDeduction (rule : DeductionRule) (checks : List CheckResult)
    (data : ExtractedData) : ℚ :=
  let occurrences := evaluateCondition (rule.condition.getD "") checks data
  if occurrences = 0 then 0
  else if rule.per_occurrence then
    match rule.max_deduction with
    | some m => pyMin (rule.points * (occurrences : ℚ)) m
    | none => rule.points * (occurrences : ℚ)
  else if 0 < occurrences then rule.points else 0

/-- One configured risk-level entry (`risk_levels` dict values).  An absent
`score_range` key defaults to `[]`; `triggers := none` models an absent key
(the code tests `"triggers" in high_config`). -/
structure RiskLevelConfig where
  score_range : List ℚ := []
  triggers : Option (List String) := none
deriving DecidableEq, Repr, Inhabited

/-- Python `risk_levels.get(key)` on the insertion-ordered dict. -/
def lookupCfg (rl : List (String × RiskLevelConfig)) (k : String) :
    Option RiskLevelConfig :=
  (List.find? (fun p => p.1 == k) rl).map (·.2)

/-- `RiskScorer._check_triggers`: true if any trigger condition has positive
occurrences. -/
def checkTriggers (triggers : List String) (checks : List CheckResult)
    (data : ExtractedData) : Bool :=
  triggers.any (fun t => decide (0 < evaluateCondition t checks data))

/-- The range-based lookup loop of `RiskScorer._determine_risk_level`:
the first entry whose two-element `score_range` contains the score and whose
name is high/medium/low yields that level; other entries are skipped. -/
def rangeRiskLookup : List (String × RiskLevelConfig) → ℚ → Option RiskLevel
  | [], _ => none
  | (name, cfg) :: rest, score =>
      match cfg.score_range with
      | [lo, hi] =>
          if lo ≤ score ∧ score ≤ hi then
            if name == "high" then some .HIGH
            else if name == "medium" then some .MEDIUM
            else if name == "low" then some .LOW
            else rangeRiskLookup rest score
          else rangeRiskLookup rest score
      | _ => rangeRiskLookup rest score

/-- `RiskScorer._determine_risk_level`. -/
def determineRiskLevel (risk_levels : List (String × RiskLevelConfig))
    (score : ℚ) (checks : List CheckResult) (data : ExtractedData) : RiskLevel :=
  let critTrig :=
    match lookupCfg risk_levels "critical" with
    | some cfg => checkTriggers (cfg.triggers.getD []) checks data
    | none => false
  if critTrig then .CRITICAL
  else
    let highCfg := (lookupCfg risk_levels "high").getD {}
    let highTrig :=
      match highCfg.triggers with
      | some t => checkTriggers t checks data
      | none => false
    if highTrig then .HIGH
    else
      match rangeRiskLookup risk_levels score with
      | some lvl => lvl
      | none => if score ≤ 60 then .HIGH else if score ≤ 85 then .MEDIUM else .LOW

/-- `RiskScorer._determine_status`. -/
def determineStatus (score : ℚ) (rl : RiskLevel) (checks : List CheckResult) :
    Status :=
  if (checks.filter (fun c => c.severity == "high" && !c.passed)).isEmpty then
    match rl with
    | .CRITICAL => .ERROR
    | .HIGH => if score < 40 then .ERROR else .WITH_LIMITATIONS
    | .MEDIUM => .WITH_LIMITATIONS
    | _ => .OK
  else .ERROR

/-- One entry of `deduction_details`: either a triggered rule or a failed
check with points. -/
inductive DeductionDetail where
  | ruleDetail (condition : Option String) (description : String) (points : ℚ)
  | checkDetail (check : String) (severity : String) (points : ℚ)
deriving DecidableEq, Repr

/-- Points recorded in one deduction-details entry. -/
def DeductionDetail.points : DeductionDetail → ℚ
  | .ruleDetail _ _ p => p
  | .checkDetail _ _ p => p

/-- Complete scoring result (`ScoreResult` dataclass). -/
structure ScoreResult where
  score : ℚ
  base_score : ℚ
  total_deductions : ℚ
  risk_level : RiskLevel
  status : Status
  deduction_details : List DeductionDetail := []
  triggered_rules : List String := []
deriving DecidableEq, Repr

/-- The `RiskScorer` configuration state after `__init__`. -/
structure RiskScorer where
  base_score : ℚ := 100
  deductions : List DeductionRule := []
  risk_levels : List (String × RiskLevelConfig) := []
deriving DecidableEq, Repr

/-- The default risk levels installed by `_validate_config` when none are
configured. -/
def defaultRiskLevels : List (String × RiskLevelConfig) :=
  [("high", { score_range := [0, 60] }),
   ("medium", { score_range := [61, 85] }),
   ("low", { score_range := [86, 100] })]

/-- The risk levels actually used after `_validate_config` ran. -/
def RiskScorer.effectiveRiskLevels (rs : RiskScorer) :
    List (String × RiskLevelConfig) :=
  if rs.risk_levels.isEmpty then defaultRiskLevels else rs.risk_levels

/-- The validation `_validate_config` performs on the base score (raises
otherwise). -/
def RiskScorer.validBase (rs : RiskScorer) : Prop :=
  0 ≤ rs.base_score ∧ rs.base_score ≤ 100

/-- Mutable loop state of `RiskScorer.calculate`. -/
structure CalcState where
  score : ℚ
  total : ℚ
  details : List DeductionDetail
  triggered : List String
deriving DecidableEq, Repr

/-- One iteration of the deduction-rule loop in `RiskScorer.calculate`. -/
def calcStepRule (checks : List CheckResult) (data : ExtractedData)
    (st : CalcState) (rule : DeductionRule) : CalcState :=
  let amt := applyDeduction rule checks data
  if 0 < amt then
    { score := st.score - amt
      total := st.total + amt
      details := st.details ++
        [.ruleDetail rule.condition (rule.description.getD "Unknown") amt]
      triggered := st.triggered ++ [rule.condition.getD "unknown"] }
  else st

/-- One iteration of the check-based deduction loop in `RiskScorer.calculate`. -/
def calcStepCheck (st : CalcState) (c : CheckResult) : CalcState :=
  if !c.passed && decide (0 < c.points_deducted) then
    { score := st.score - c.points_deducted
      total := st.total + c.points_deducted
      details := st.details ++ [.checkDetail c.name c.severity c.points_deducted]
      triggered := st.triggered }
  else st

/-- `RiskScorer.calculate`: deduction rules, then check-based deductions,
then clamping, risk level and status. -/
def RiskScorer.calculate (rs : RiskScorer) (checks : List CheckResult)
    (data : ExtractedData) : ScoreResult :=
  let s1 := rs.deductions.foldl (calcStepRule checks data)
    { score := rs.base_score, total := 0, details := [], triggered := [] }
  let s2 := checks.foldl calcStepCheck s1
  let finalScore := pyMax 0 (pyMin 100 s2.score)
  let rl := determineRiskLevel rs.effectiveRiskLevels finalScore checks data
  { score := finalScore
    base_score := rs.base_score
    total_deductions := s2.total
    risk_level := rl
    status := determineStatus finalScore rl checks
    deduction_details := s2.details
    triggered_rules := s2.triggered }

/-! ## Bridging lemmas for the Python min/max model -/

/-- Python `min` agrees with the lattice `min` on `ℚ`. -/
lemma pyMin_eq_min (a b : ℚ) : pyMin a b = min a b := by
  rw [pyMin, min_def]

/-- Python `max` agrees with the lattice `max` on `ℚ`. -/
lemma pyMax_eq_max (a b : ℚ) : pyMax a b = max a b := by
  unfold pyMax
  rcases le_or_lt b a with h | h
  · rw [if_pos h, max_eq_left h]
  · rw [if_neg (not_le.mpr h), max_eq_right h.le]

/-! ## Invariant of the `calculate` folds (Claim C1) -/

/-- Sum of the points recorded in a deduction-details list. -/
def detailsSum (l : List DeductionDetail) : ℚ :=
  (l.map DeductionDetail.points).sum

/-- Invariant carried by the two deduction loops of `calculate`: the running
score is the base score minus the running total, and the running total is the
sum of the recorded deduction details. -/
def CalcInv (base : ℚ) (st : CalcState) : Prop :=
  st.score = base - st.total ∧ st.total = detailsSum st.details

lemma detailsSum_append (l : List DeductionDetail) (d : DeductionDetail) :
    detailsSum (l ++ [d]) = detailsSum l + d.points := by
  simp [detailsSum]

lemma calcStepRule_inv (checks : List CheckResult) (data : ExtractedData)
    (rule : DeductionRule) {base : ℚ} {st : CalcState} (h : CalcInv base st) :
    CalcInv base (calcStepRule checks data st rule) := by
  obtain ⟨h1, h2⟩ := h
  simp only [calcStepRule]
  split
  · refine ⟨?_, ?_⟩
    · simp only [h1]; ring
    · simp only [detailsSum_append, h2, DeductionDetail.points]
  · exact ⟨h1, h2⟩

lemma calcStepCheck_inv (c : CheckResult) {base : ℚ} {st : CalcState}
    (h : CalcInv base st) : CalcInv base (calcStepCheck st c) := by
  obtain ⟨h1, h2⟩ := h
  simp only [calcStepCheck]
  split
  · refine ⟨?_, ?_⟩
    · simp only [h1]; ring
    · simp only [detailsSum_append, h2, DeductionDetail.points]
  · exact ⟨h1, h2⟩

lemma calcFoldRule_inv (checks : List CheckResult) (data : ExtractedData)
    (rules : List DeductionRule) {base : ℚ} :
    ∀ st : CalcState, CalcInv base st →
      CalcInv base (rules.foldl (calcStepRule checks data) st) := by
  induction rules with
  | nil => intro st h; exact h
  | cons r rest ih =>
      intro st h
      exact ih _ (calcStepRule_inv checks data r h)

lemma calcFoldCheck_inv (checks : List CheckResult) {base : ℚ} :
    ∀ st : CalcState, CalcInv base st →
      CalcInv base (checks.foldl calcStepCheck st) := by
  induction checks with
  | nil => intro st h; exact h
  | cons c rest ih =>
      intro st h
      exact ih _ (calcStepCheck_inv c h)

/-- Claim C1: for every list of CheckResults and every configured set of
deduction rules, `RiskScorer.calculate` returns a ScoreResult whose score
equals the base score minus the sum of all applied deductions, clamped to
the interval [0, 100]; in particular `0 ≤ score ≤ 100` holds even when the
total deductions exceed the base score. -/
theorem claim_C1 (rs : RiskScorer) (checks : List CheckResult)
    (data : ExtractedData) :
    (rs.calculate checks data).score
      = max 0 (min 100 (rs.base_score - (rs.calculate checks data).total_deductions)) ∧
    (rs.calculate checks data).total_deductions
      = detailsSum (rs.calculate checks data).deduction_details ∧
    0 ≤ (rs.calculate checks data).score ∧
    (rs.calculate checks data).score ≤ 100 := by
  have hinv : CalcInv rs.base_score
      (checks.foldl calcStepCheck
        (rs.deductions.foldl (calcStepRule checks data)
          { score := rs.base_score, total := 0, details := [], triggered := [] })) :=
    calcFoldCheck_inv checks _
      (calcFoldRule_inv checks data rs.deductions _
        ⟨by simp, by simp [detailsSum]⟩)
  obtain ⟨h1, h2⟩ := hinv
  simp only [RiskScorer.calculate]
  rw [pyMax_eq_max, pyMin_eq_min, h1]
  refine ⟨by rw [h2], by rw [h2], le_max_left 0 _, ?_⟩
  exact max_le (by norm_num) (min_le_left _ _)

/-! ## The configured scenario of Claim C7 -/

/-- Ten failed checks (the scenario of the spec: ten failed backup checks of
high severity, no check-based point deductions). -/
def scenarioChecks : List CheckResult :=
  List.replicate 10
    { check_id := "backup_failures", name := "Fehlerhafte Backups",
      passed := false, severity := "high" }

/-- The scenario deduction rule: 5 points per failed check, capped at 20. -/
def scenarioRule : DeductionRule :=
  { condition := some "critical_errors", points := 5,
    per_occurrence := true, max_deduction := some 20 }

/-- The scenario scorer: base score 100 with the single scenario rule. -/
def scenarioScorer : RiskScorer :=
  { base_score := 100, deductions := [scenarioRule] }

lemma scenario_eval :
    evaluateCondition "critical_errors" scenarioChecks [] = 10 := by
  decide

lemma scenario_ded : applyDeduction scenarioRule scenarioChecks [] = 20 := by
  simp only [applyDeduction, scenarioRule, Option.getD_some]
  norm_num [scenario_eval, pyMin]

lemma foldl_fix_of_step_fix {α β : Type} (f : β → α → β) (c : α)
    (h : ∀ st, f st c = st) :
    ∀ (n : ℕ) (st : β), (List.replicate n c).foldl f st = st := by
  intro n
  induction n with
  | zero => intro st; rfl
  | succ k ih =>
      intro st
      rw [List.replicate_succ, List.foldl_cons, h st]
      exact ih st

lemma scenario_score : (scenarioScorer.calculate scenarioChecks []).score = 80 := by
  have hstep : calcStepRule scenarioChecks []
      { score := (100:ℚ), total := 0, details := [], triggered := [] } scenarioRule =
      { score := 80, total := 20,
        details := [.ruleDetail (some "critical_errors") "Unknown" 20],
        triggered := ["critical_errors"] } := by
    simp only [calcStepRule, scenario_ded]
    norm_num [scenarioRule]
  have hone : ∀ st : CalcState,
      calcStepCheck st
        { check_id := "backup_failures", name := "Fehlerhafte Backups",
          passed := false, severity := "high" } = st := by
    intro st
    simp [calcStepCheck]
  have hfold : ∀ st : CalcState, scenarioChecks.foldl calcStepCheck st = st :=
    fun st => foldl_fix_of_step_fix calcStepCheck _ hone 10 st
  have hd : scenarioScorer.deductions = [scenarioRule] := rfl
  have hb : scenarioScorer.base_score = (100:ℚ) := rfl
  have h2 : (scenarioChecks.foldl calcStepCheck
      (scenarioScorer.deductions.foldl (calcStepRule scenarioChecks [])
        { score := scenarioScorer.base_score, total := 0, details := [], triggered := [] })) =
      { score := 80, total := 20,
        details := [.ruleDetail (some "critical_errors") "Unknown" 20],
        triggered := ["critical_errors"] } := by
    rw [hd, hb, List.foldl_cons, List.foldl_nil, hstep, hfold]
  simp only [RiskScorer.calculate, h2]
  norm_num [pyMax, pyMin]

/-- Claim C7: for every deduction rule whose condition holds with n > 0
occurrences, the deducted amount is min(points × n, max_deduction) when the
rule is per-occurrence (an absent cap meaning no cap), and exactly the rule's
points otherwise; in particular, with base score 100 and one rule of 5 points
per failed check capped at 20, ten failed checks yield a deduction of 20 and
a final score of 80. -/
theorem claim_C7 (rule : DeductionRule) (checks : List CheckResult)
    (data : ExtractedData) (n : ℤ)
    (h1 : evaluateCondition (rule.condition.getD "") checks data = n)
    (h2 : 0 < n) :
    (applyDeduction rule checks data =
      if rule.per_occurrence then
        (match rule.max_deduction with
         | some m => min (rule.points * (n : ℚ)) m
         | none => rule.points * (n : ℚ))
      else rule.points) ∧
    applyDeduction scenarioRule scenarioChecks [] = 20 ∧
    (scenarioScorer.calculate scenarioChecks []).score = 80 := by
  refine ⟨?_, scenario_ded, scenario_score⟩
  simp only [applyDeduction, h1]
  rw [if_neg (by omega : ¬ n = 0)]
  rcases hpo : rule.per_occurrence with _ | _ <;>
    rcases hmax : rule.max_deduction with _ | m <;>
      simp [hpo, hmax, h2, pyMin_eq_min]

/-- Witness for Claim C7: the theorem applied to the scenario rule, the ten
failed scenario checks and n = 10. -/
theorem claim_C7_witness :
    evaluateCondition (scenarioRule.condition.getD "") scenarioChecks [] = 10 ∧
    (0:ℤ) < 10 ∧
    (applyDeduction scenarioRule scenarioChecks [] =
      if scenarioRule.per_occurrence then
        (match scenarioRule.max_deduction with
         | some m => min (scenarioRule.points * ((10:ℤ) : ℚ)) m
         | none => scenarioRule.points * ((10:ℤ) : ℚ))
      else scenarioRule.points) := by
  have h1 : evaluateCondition (scenarioRule.condition.getD "") scenarioChecks [] = 10 := by
    decide
  exact ⟨h1, by norm_num,
    (claim_C7 scenarioRule scenarioChecks [] 10 h1 (by norm_num)).1⟩

/-! ## `src/core/report_detector.py` — multi-stage detection (Claim C8) -/

/-- `ReportDetector.detect`: four short-circuiting stages.  The stage results
are the values the stage methods would return (each stage method catches its
own exceptions and returns `none` on any failure); `llmAvailable` models
`self.llm_handler and self.llm_handler.is_available()`, which gates stage 3.
`R` abstracts `DetectionResult`, which `detect` never inspects. -/
def detectReportType {R : Type} (stage1 stage2 : Option R) (llmAvailable : Bool)
    (stage3 stage4 : Option R) : Option R :=
  match stage1 with
  | some r => some r
  | none =>
      match stage2 with
      | some r => some r
      | none =>
          match (if llmAvailable then stage3 else none) with
          | some r => some r
          | none =>
              match stage4 with
              | some r => some r
              | none => none

/-- Claim C8: report-type detection runs its four stages in the fixed order
filename, content, external classifier, manual; the first stage producing a
result wins and all later stages are skipped (their results are ignored), and
when all four stages produce nothing `detect` returns `none` rather than
raising. -/
theorem claim_C8 {R : Type} (s1 s2 s3 s4 : Option R) (avail : Bool) (r : R) :
    (s1 = some r → detectReportType s1 s2 avail s3 s4 = some r) ∧
    (s1 = none → s2 = some r → detectReportType s1 s2 avail s3 s4 = some r) ∧
    (s1 = none → s2 = none → avail = true → s3 = some r →
      detectReportType s1 s2 avail s3 s4 = some r) ∧
    (s1 = none → s2 = none → avail = false →
      detectReportType s1 s2 avail s3 s4 = detectReportType none none false none s4) ∧
    (s1 = none → s2 = none → s4 = some r → (avail = false ∨ s3 = none) →
      detectReportType s1 s2 avail s3 s4 = some r) ∧
    (s1 = none → s2 = none → s4 = none → (avail = false ∨ s3 = none) →
      detectReportType s1 s2 avail s3 s4 = none) := by
  refine ⟨?_, ?_, ?_, ?_, ?_, ?_⟩
  · rintro rfl; rfl
  · rintro rfl rfl; rfl
  · rintro rfl rfl rfl rfl; rfl
  · rintro rfl rfl rfl; rfl
  · rintro rfl rfl rfl h
    rcases h with rfl | rfl
    · rfl
    · cases avail <;> rfl
  · rintro rfl rfl rfl h
    rcases h with rfl | rfl
    · rfl
    · cases avail <;> rfl

/-- Witness for Claim C8: all four stages empty with the classifier
available yields no detection. -/
theorem claim_C8_witness :
    detectReportType (R := ℕ) none none true none none = none :=
  (claim_C8 (R := ℕ) none none none none true 0).2.2.2.2.2 rfl rfl rfl (Or.inr rfl)

/-! ## String similarity (difflib.SequenceMatcher, used by `_fuzzy_match`)

The analyzer computes `SequenceMatcher(None, na, nb).ratio()` on normalized
column names.  `find_longest_match` is embedded through its documented
contract: among all maximal matching blocks it returns the one starting
earliest in `a`, ties broken by the earliest start in `b` (the `b2j`
junk/popularity heuristics are inactive for sequences shorter than 200
elements, which covers every column name and alternative in the
configuration).  `ratio` is twice the total size of all matching blocks over
the total length. -/

/-- Length of the common prefix of two character lists. -/
def commonPrefixLen : List Char → List Char → ℕ
  | a :: as, b :: bs => if a = b then commonPrefixLen as bs + 1 else 0
  | _, _ => 0

/-- Length of the matching run starting at positions `i` in `a` and `j` in `b`. -/
def runLen (a b : List Char) (i j : ℕ) : ℕ :=
  commonPrefixLen (a.drop i) (b.drop j)

/-- Maximum of a list of naturals (0 for the empty list). -/
def natListMax (l : List ℕ) : ℕ :=
  l.foldr max 0

/-- Longest matching run beginning at position `i` of `a`. -/
def rowMaxRun (a b : List Char) (i : ℕ) : ℕ :=
  natListMax ((List.range b.length).map (runLen a b i))

/-- Size of the longest matching block of `a` and `b`
(`find_longest_match`'s block size). -/
def bestSize (a b : List Char) : ℕ :=
  natListMax ((List.range a.length).map (rowMaxRun a b))

/-- Start in `a` of the longest matching block: the earliest position
attaining `bestSize`. -/
def bestStartA (a b : List Char) : ℕ :=
  ((List.range a.length).find? (fun i => rowMaxRun a b i == bestSize a b)).getD 0

/-- Start in `b` of the longest matching block: the earliest position pairing
with `bestStartA` at size `bestSize`. -/
def bestStartB (a b : List Char) : ℕ :=
  ((List.range b.length).find?
    (fun j => runLen a b (bestStartA a b) j == bestSize a b)).getD 0

/-- `SequenceMatcher.find_longest_match` (no junk): start in `a`, start in
`b`, and size of the longest matching block, `(0,0,0)` when nothing matches. -/
def findLongestMatch (a b : List Char) : ℕ × ℕ × ℕ :=
  let K := bestSize a b
  if K = 0 then (0, 0, 0) else (bestStartA a b, bestStartB a b, K)

/-- Total size of all matching blocks (`get_matching_blocks`), computed by
the recursive split around the longest match; `fuel` bounds the recursion
depth (any fuel above the combined length is enough). -/
def matchingTotalGo : ℕ → List Char → List Char → ℕ
  | 0, _, _ => 0
  | fuel + 1, a, b =>
      match findLongestMatch a b with
      | (i, j, k) =>
          if k = 0 then 0
          else
            k + matchingTotalGo fuel (a.take i) (b.take j)
              + matchingTotalGo fuel (a.drop (i + k)) (b.drop (j + k))

/-- Total matched elements of `a` and `b` (the `matches` of `ratio`). -/
def matchingTotal (a b : List Char) : ℕ :=
  matchingTotalGo (a.length + b.length + 1) a b

/-- `SequenceMatcher.ratio()`: `2 * M / T`, and 1.0 when both inputs are
empty. -/
def seqRatio (a b : List Char) : ℚ :=
  if a.length + b.length = 0 then 1
  else 2 * (matchingTotal a b : ℚ) / ((a.length : ℚ) + (b.length : ℚ))

/-- `VeeamBackupAnalyzer._normalize_string`: strip, lowercase, NFD-decompose
and drop combining marks.  On the ASCII strings of the analysed
configurations the last two steps are the identity. -/
def normalizePy (s : String) : List Char :=
  (trimWs s.toList).map asciiLower

/-- The similarity computed inside `VeeamBackupAnalyzer._fuzzy_match` for one
alternative: the ratio of the two normalized strings. -/
def similarityPy (text alt : String) : ℚ :=
  seqRatio (normalizePy text) (normalizePy alt)

/-- `VeeamBackupAnalyzer._fuzzy_match`: true when some alternative's
similarity to `text` meets the threshold. -/
def fuzzyMatch (text : String) (alternatives : List String) (threshold : ℚ) :
    Bool :=
  alternatives.any (fun alt => threshold ≤ similarityPy text alt)

/-! ## Claim C9: symmetry of the similarity -/

lemma commonPrefixLen_comm : ∀ a b : List Char,
    commonPrefixLen a b = commonPrefixLen b a := by
  intro a
  induction a with
  | nil => intro b; cases b <;> rfl
  | cons x xs ih =>
      intro b
      cases b with
      | nil => rfl
      | cons y ys =>
          simp only [commonPrefixLen]
          rcases eq_or_ne x y with rfl | hxy
          · rw [if_pos rfl, if_pos rfl, ih]
          · rw [if_neg hxy, if_neg (Ne.symm hxy)]

lemma runLen_swap (a b : List Char) (i j : ℕ) :
    runLen a b i j = runLen b a j i := by
  rw [runLen, runLen, commonPrefixLen_comm]

lemma natListMax_le_iff {l : List ℕ} {K : ℕ} :
    natListMax l ≤ K ↔ ∀ x ∈ l, x ≤ K := by
  induction l with
  | nil => simp [natListMax]
  | cons x xs ih =>
      simp only [natListMax, List.foldr_cons, max_le_iff, List.mem_cons]
      constructor
      · rintro ⟨h1, h2⟩ y (rfl | hy)
        · exact h1
        · exact (ih.mp h2) y hy
      · intro h
        exact ⟨h x (Or.inl rfl), ih.mpr (fun y hy => h y (Or.inr hy))⟩

lemma le_natListMax {l : List ℕ} {x : ℕ} (h : x ∈ l) : x ≤ natListMax l := by
  have := natListMax_le_iff.mp (le_refl (natListMax l))
  exact this x h

lemma bestSize_le_iff {a b : List Char} {K : ℕ} :
    bestSize a b ≤ K ↔ ∀ i < a.length, ∀ j < b.length, runLen a b i j ≤ K := by
  rw [bestSize, natListMax_le_iff]
  constructor
  · intro h i hi j hj
    have hrow : rowMaxRun a b i ≤ K :=
      h _ (List.mem_map_of_mem _ (List.mem_range.mpr hi))
    rw [rowMaxRun, natListMax_le_iff] at hrow
    exact hrow _ (List.mem_map_of_mem _ (List.mem_range.mpr hj))
  · intro h x hx
    obtain ⟨i, hi, rfl⟩ := List.mem_map.mp hx
    rw [rowMaxRun, natListMax_le_iff]
    intro y hy
    obtain ⟨j, hj, rfl⟩ := List.mem_map.mp hy
    exact h i (List.mem_range.mp hi) j (List.mem_range.mp hj)

lemma runLen_le_bestSize {a b : List Char} {i j : ℕ}
    (hi : i < a.length) (hj : j < b.length) :
    runLen a b i j ≤ bestSize a b :=
  bestSize_le_iff.mp (le_refl _) i hi j hj

lemma bestSize_comm (a b : List Char) : bestSize a b = bestSize b a := by
  apply le_antisymm
  · rw [bestSize_le_iff]
    intro i hi j hj
    rw [runLen_swap]
    exact runLen_le_bestSize hj hi
  · rw [bestSize_le_iff]
    intro j hj i hi
    rw [runLen_swap]
    exact runLen_le_bestSize hi hj

/-- Claim C9 (amended): the similarity's denominator and the size of the
longest matching block of the two normalized strings are symmetric in the two
arguments, but the full similarity ratio is not symmetric in general. -/
theorem claim_C9 (a b : String) :
    bestSize (normalizePy a) (normalizePy b)
      = bestSize (normalizePy b) (normalizePy a) :=
  bestSize_comm _ _

/-- Counterexample to Claim C9 as stated: the similarity of `"abwzcd"` and
`"cdabvz"` is 1/2 in one order and 1/3 in the other, so
`similar(a,b) = similar(b,a)` fails. -/
theorem claim_C9_counterexample :
    similarityPy "abwzcd" "cdabvz" ≠ similarityPy "cdabvz" "abwzcd" := by
  have hl1 : (normalizePy "abwzcd").length = 6 := by decide
  have hl2 : (normalizePy "cdabvz").length = 6 := by decide
  have hm1 : matchingTotal (normalizePy "abwzcd") (normalizePy "cdabvz") = 3 := by
    decide
  have hm2 : matchingTotal (normalizePy "cdabvz") (normalizePy "abwzcd") = 2 := by
    decide
  rw [similarityPy, similarityPy, seqRatio, seqRatio, hl1, hl2, hm1, hm2]
  norm_num

/-! ## `VeeamBackupAnalyzer._map_columns` — the Schema Mapper (Claim C6)

A DataFrame is modelled as its list of named columns (name, column values);
`pandas.DataFrame.rename(columns=m)` maps every column label through the
mapping and never drops a column, so two source columns renamed to the same
canonical name both remain, as duplicate labels. -/

/-- The configured `field_mappings`: canonical field name with its
alternative spellings, in configured (insertion) order. -/
def FieldMappings := List (String × List String)

/-- The inner loop of `_map_columns` for one source column: the first
canonical field (in configured order) whose alternatives fuzzy-match it. -/
def findFieldMatch (fm : FieldMappings) (thr : ℚ) (col : String) :
    Option (String × List String) :=
  List.find? (fun p => fuzzyMatch col p.2 thr) fm

/-- The name a source column ends up with: the first fuzzy-matching canonical
field, otherwise the original name.  (This is the spec's description of the
renaming; the theorem below proves `mapColumns` realizes it.) -/
def applyMapping (fm : FieldMappings) (thr : ℚ) (col : String) : String :=
  match findFieldMatch fm thr col with
  | some p => p.1
  | none => col

/-- The `column_mapping` dict built by `_map_columns` (pairs in insertion
order; only matched columns appear). -/
def columnMapping (fm : FieldMappings) (thr : ℚ) (names : List String) :
    List (String × String) :=
  names.filterMap (fun n => (findFieldMatch fm thr n).map (fun p => (n, p.1)))

/-- `DataFrame.rename(columns=m)`: every label is mapped through `m`. -/
def renameCols {α : Type} (m : List (String × String)) (df : List (String × α)) :
    List (String × α) :=
  df.map (fun c =>
    match List.find? (fun e => e.1 == c.1) m with
    | some e => (e.2, c.2)
    | none => c)

/-- `VeeamBackupAnalyzer._map_columns`: copy, build the mapping, rename if
any column matched. -/
def mapColumns {α : Type} (fm : FieldMappings) (thr : ℚ)
    (df : List (String × α)) : List (String × α) :=
  let cm := columnMapping fm thr (df.map (·.1))
  if cm.isEmpty then df else renameCols cm df

/-- Looking a column name up in the renamed table with Python's
last-write-wins dict semantics (the later of two duplicate labels wins). -/
def lastLookup {α : Type} (df : List (String × α)) (nm : String) : Option α :=
  ((df.filter (fun c => c.1 == nm)).getLast?).map (·.2)


lemma columnMapping_lookup_none (fm : FieldMappings) (thr : ℚ) (n : String)
    (h : findFieldMatch fm thr n = none) :
    ∀ names : List String,
      List.find? (fun e => e.1 == n) (columnMapping fm thr names) = none := by
  intro names
  induction names with
  | nil => rfl
  | cons m ms ih =>
      rw [columnMapping, List.filterMap_cons]
      cases hm : findFieldMatch fm thr m with
      | none =>
          simp only [Option.map_none']
          exact ih
      | some p =>
          have hmn : (((m, p.1) : String × String).1 == n) = false := by
            simp only [beq_eq_false_iff_ne, ne_eq]
            intro hEq
            rw [hEq, h] at hm
            exact Option.noConfusion hm
          simp only [Option.map_some', List.find?_cons, hmn, cond_false]
          exact ih

lemma columnMapping_lookup (fm : FieldMappings) (thr : ℚ) (names : List String)
    (n : String) (hn : n ∈ names) :
    List.find? (fun e => e.1 == n) (columnMapping fm thr names) =
      (findFieldMatch fm thr n).map (fun p => (n, p.1)) := by
  induction names with
  | nil => cases hn
  | cons m ms ih =>
      rw [columnMapping, List.filterMap_cons]
      by_cases hmn : m = n
      · subst hmn
        cases hm : findFieldMatch fm thr m with
        | none =>
            simp only [Option.map_none']
            rw [show (List.filterMap
                (fun n => (findFieldMatch fm thr n).map (fun p => (n, p.1))) ms)
              = columnMapping fm thr ms from rfl]
            rw [columnMapping_lookup_none fm thr m hm ms]
        | some p =>
            simp only [Option.map_some', List.find?_cons, beq_self_eq_true, cond_true]
      · rcases List.mem_cons.mp hn with rfl | hn'
        · exact absurd rfl hmn
        · cases hm : findFieldMatch fm thr m with
          | none =>
              simp only [Option.map_none']
              exact ih hn'
          | some p =>
              have hbeq : (((m, p.1) : String × String).1 == n) = false := by
                simp only [beq_eq_false_iff_ne, ne_eq]
                exact hmn
              simp only [Option.map_some', List.find?_cons, hbeq, cond_false]
              exact ih hn'

lemma mapColumns_eq_map {α : Type} (fm : FieldMappings) (thr : ℚ)
    (df : List (String × α)) :
    mapColumns fm thr df = df.map (fun c => (applyMapping fm thr c.1, c.2)) := by
  rw [mapColumns]
  by_cases hcm : (columnMapping fm thr (df.map (·.1))).isEmpty
  · rw [if_pos hcm]
    rw [List.isEmpty_iff] at hcm
    have hall : ∀ n ∈ df.map (·.1), findFieldMatch fm thr n = none := by
      intro n hn
      have := (List.filterMap_eq_nil_iff.mp hcm) n hn
      exact Option.map_eq_none.mp this
    have hfix : ∀ c ∈ df, (applyMapping fm thr c.1, c.2) = c := by
      intro c hc
      rw [applyMapping, hall c.1 (List.mem_map_of_mem _ hc)]
    rw [List.map_congr_left hfix]
    simp
  · rw [if_neg hcm, renameCols]
    apply List.map_congr_left
    intro c hc
    rw [columnMapping_lookup fm thr _ c.1 (List.mem_map_of_mem _ hc)]
    rw [applyMapping]
    cases hm : findFieldMatch fm thr c.1 with
    | none => simp
    | some p => simp

/-- Claim C6: the Schema Mapper renames each source column to the first
canonical field, in configured order, whose alternatives fuzzy-match the
column name; unmatched columns keep their original names; no column is ever
dropped (the output has exactly as many columns as the input); and when two
source columns map to the same canonical name, looking that name up (with
Python's last-write-wins duplicate-label semantics) yields the later source
column — both collided columns remain present in the renamed table. -/
theorem claim_C6 {α : Type} (fm : FieldMappings) (thr : ℚ)
    (df : List (String × α)) :
    (mapColumns fm thr df).length = df.length ∧
    (∀ i : ℕ, (mapColumns fm thr df)[i]? =
      (df[i]?).map (fun c => (applyMapping fm thr c.1, c.2))) ∧
    (∀ nm : String, lastLookup (mapColumns fm thr df) nm =
      ((df.filter (fun c => applyMapping fm thr c.1 == nm)).getLast?).map (·.2)) := by
  refine ⟨?_, ?_, ?_⟩
  · rw [mapColumns_eq_map]
    exact List.length_map _ _
  · intro i
    rw [mapColumns_eq_map, List.getElem?_map]
  · intro nm
    rw [mapColumns_eq_map, lastLookup, List.filter_map, List.getLast?_map]
    simp [Function.comp_def]

/-! ## `VeeamBackupAnalyzer._detect_date_format` (Claims C4, C5) -/

/-- Python `str.split()` (no argument): whitespace-separated tokens, empties
dropped. -/
def wsSplit (l : List Char) : List (List Char) :=
  (l.splitOnP isPyWs).filter (fun t => !t.isEmpty)

/-- Python `max` over a list of ints (first maximal element wins); the empty
case raises in Python and is handled by the caller. -/
def listMaxZ : List ℤ → ℤ
  | [] => 0
  | x :: xs => xs.foldl (fun a b => if a < b then b else a) x

/-- The single element of a one-value set: `some x` when the list is
non-empty and all its values equal (`len(set(l)) == 1`). -/
def singleUniqueValue : List ℤ → Option ℤ
  | [] => none
  | x :: xs => if xs.all (· == x) then some x else none

/-- Python `len(unique) == 1 and 1 <= month_value <= 12`. -/
def isSingleMonth (l : List ℤ) : Bool :=
  match singleUniqueValue l with
  | some m => decide (1 ≤ m ∧ m ≤ 12)
  | none => false

/-- The component-collection loop of `_detect_date_format` (lines 185–201):
per sample, take the part before the first space, split on `-`, and append
`int(parts[0])`, `int(parts[1])`, `int(parts[2])` to the three position
lists, keeping the earlier appends of a sample whose later component fails to
parse.  `none` models the only statement that can raise outside the inner
`try` (`split()[0]` on a whitespace-only sample), which sends the whole
function to its fallback. -/
def extractDateComponents : List String → Option (List ℤ × List ℤ × List ℤ)
  | [] => some ([], [], [])
  | s :: rest =>
      let chars := s.toList
      let datePart? : Option (List Char) :=
        if chars.contains ' ' then
          match wsSplit chars with
          | [] => none
          | t :: _ => some t
        else some chars
      match datePart? with
      | none => none
      | some datePart =>
          match extractDateComponents rest with
          | none => none
          | some (p0s, p1s, p2s) =>
              match splitOnListGo ['-'] datePart.length datePart [] with
              | a :: b :: c :: _ =>
                  match parseIntPy a with
                  | none => some (p0s, p1s, p2s)
                  | some v0 =>
                      match parseIntPy b with
                      | none => some (v0 :: p0s, p1s, p2s)
                      | some v1 =>
                          match parseIntPy c with
                          | none => some (v0 :: p0s, v1 :: p1s, p2s)
                          | some v2 => some (v0 :: p0s, v1 :: p1s, v2 :: p2s)
              | _ => some (p0s, p1s, p2s)

/-- `VeeamBackupAnalyzer._detect_date_format`.  An empty `pos1`/`pos2` with a
non-empty `pos0` makes Python's `max([])` raise, which the surrounding
`try` turns into the `'yyyy-mm-dd'` fallback. -/
def detectDateFormatPy (samples : List String) : String :=
  match extractDateComponents samples with
  | none => "yyyy-mm-dd"
  | some (p0s, p1s, p2s) =>
      if p0s.isEmpty then "yyyy-mm-dd"
      else if p1s.isEmpty || p2s.isEmpty then "yyyy-mm-dd"
      else
        if 1000 < listMaxZ p0s then
          if isSingleMonth p2s then "yyyy-dd-mm"
          else if isSingleMonth p1s then "yyyy-mm-dd"
          else if 12 < listMaxZ p1s then "yyyy-dd-mm"
          else if 12 < listMaxZ p2s then "yyyy-mm-dd"
          else "yyyy-mm-dd"
        else "yyyy-mm-dd"

/-- The first-position component list of a sample set (empty when extraction
raised). -/
def pos0Components (samples : List String) : List ℤ :=
  match extractDateComponents samples with
  | none => []
  | some t => t.1

lemma foldl_pymax_le {K : ℤ} :
    ∀ (xs : List ℤ) (acc : ℤ), acc ≤ K → (∀ x ∈ xs, x ≤ K) →
      xs.foldl (fun a b => if a < b then b else a) acc ≤ K := by
  intro xs
  induction xs with
  | nil => intro acc h _; exact h
  | cons y ys ih =>
      intro acc hacc hall
      simp only [List.foldl_cons]
      apply ih
      · by_cases hy : acc < y
        · rw [if_pos hy]; exact hall y (List.mem_cons_self y ys)
        · rw [if_neg hy]; exact hacc
      · intro x hx; exact hall x (List.mem_cons_of_mem _ hx)

lemma listMaxZ_le {l : List ℤ} {K : ℤ} (h : ∀ x ∈ l, x ≤ K) (hne : ¬ l = []) :
    listMaxZ l ≤ K := by
  cases l with
  | nil => exact absurd rfl hne
  | cons x xs =>
      exact foldl_pymax_le xs x (h x (List.mem_cons_self x xs))
        (fun y hy => h y (List.mem_cons_of_mem _ hy))

/-- Claim C4 (amended): when the first component's maximum does not identify
the first slot as the year (code criterion: maximum not exceeding 1000), the
date-format inference returns the default year-month-day, even when the
third component's maximum exceeds 31; no day-month-year or month-day-year
format is ever produced. -/
theorem claim_C4 (samples : List String)
    (h : ∀ x ∈ pos0Components samples, x ≤ 1000) :
    detectDateFormatPy samples = "yyyy-mm-dd" := by
  rw [detectDateFormatPy]
  rw [pos0Components] at h
  cases hext : extractDateComponents samples with
  | none => rfl
  | some t =>
      obtain ⟨p0s, p1s, p2s⟩ := t
      rw [hext] at h
      simp only at h
      by_cases h0 : p0s.isEmpty
      · simp [h0]
      · by_cases h12 : (p1s.isEmpty || p2s.isEmpty) = true
        · simp [h0, h12]
        · have hmax : ¬ (1000 < listMaxZ p0s) := by
            have := listMaxZ_le h (by simpa [List.isEmpty_iff] using h0)
            omega
          simp [h0, h12, hmax]

/-- Counterexample to Claim C4 as stated: samples whose first component's
maximum (28) does not mark the first slot as the year while the third
component's maximum (2024) exceeds 31; the code returns the year-month-day
fallback instead of day-month-year or month-day-year. -/
theorem claim_C4_counterexample :
    detectDateFormatPy ["05-03-2024", "28-03-2024"] = "yyyy-mm-dd" ∧
    detectDateFormatPy ["05-03-2024", "28-03-2024"] ≠ "dd-mm-yyyy" ∧
    detectDateFormatPy ["05-03-2024", "28-03-2024"] ≠ "mm-dd-yyyy" := by
  refine ⟨by decide, by decide, by decide⟩

/-- Witness for Claim C4 (amended): the hypothesis holds for the
counterexample samples and the theorem yields the fallback there. -/
theorem claim_C4_witness :
    (∀ x ∈ pos0Components ["05-03-2024", "28-03-2024"], x ≤ 1000) ∧
    detectDateFormatPy ["05-03-2024", "28-03-2024"] = "yyyy-mm-dd" :=
  ⟨by decide, claim_C4 ["05-03-2024", "28-03-2024"] (by decide)⟩

/-- Claim C5: when the first slot is identified as the year, the inference
first checks whether the third slot has a single unique value in [1, 12]
(returning year-day-month), and only then whether the second slot has a
single unique value in [1, 12] (returning year-month-day); for the samples
["2024-03-05", "2024-03-12", "2024-03-20"], whose second slot is constant at
3, it returns year-month-day. -/
theorem claim_C5 (samples : List String) (p0s p1s p2s : List ℤ)
    (hext : extractDateComponents samples = some (p0s, p1s, p2s))
    (h0 : p0s.isEmpty = false) (h1 : p1s.isEmpty = false)
    (h2 : p2s.isEmpty = false) (hy : 1000 < listMaxZ p0s) :
    ((isSingleMonth p2s = true → detectDateFormatPy samples = "yyyy-dd-mm") ∧
     (isSingleMonth p2s = false → isSingleMonth p1s = true →
        detectDateFormatPy samples = "yyyy-mm-dd")) ∧
    detectDateFormatPy ["2024-03-05", "2024-03-12", "2024-03-20"]
      = "yyyy-mm-dd" := by
  refine ⟨⟨?_, ?_⟩, by decide⟩
  · intro hm2
    rw [detectDateFormatPy, hext]
    simp [h0, h1, h2, hy, hm2]
  · intro hm2 hm1
    rw [detectDateFormatPy, hext]
    simp [h0, h1, h2, hy, hm2, hm1]

/-- Witness for Claim C5: the theorem applied to the scenario samples (whose
second slot is constant at 3), and, for the first conjunct, to samples whose
third slot is constant at 3. -/
theorem claim_C5_witness :
    extractDateComponents ["2024-03-05", "2024-03-12", "2024-03-20"]
      = some ([2024, 2024, 2024], [3, 3, 3], [5, 12, 20]) ∧
    (1000 < listMaxZ [2024, 2024, 2024]) ∧
    isSingleMonth [5, 12, 20] = false ∧ isSingleMonth [3, 3, 3] = true ∧
    detectDateFormatPy ["2024-03-05", "2024-03-12", "2024-03-20"]
      = "yyyy-mm-dd" := by
  refine ⟨by decide, by decide, by decide, by decide, ?_⟩
  exact (claim_C5 ["2024-03-05", "2024-03-12", "2024-03-20"]
    [2024, 2024, 2024] [3, 3, 3] [5, 12, 20] (by decide) (by decide)
    (by decide) (by decide) (by decide)).1.2 (by decide) (by decide)

/-! ## `VeeamBackupAnalyzer._analyze_per_vm` — per-entity timeline analysis
(Claims C2, C3, C10)

Dates are modelled as absolute day numbers (`ℕ`), so that `+ 1` is the next
calendar day (`pd.Timedelta(days=1)`); `daysFromCivil` below maps a civil
date to this encoding.  The per-entity core (lines 591–661) receives the
days of the report month (`all_days`) and the entity's month rows
(date, raw status) in table order. -/

/-- Round half to even at two decimals (Python `round(x, 2)`; float binary
artifacts are not modelled). -/
def roundQ2 (q : ℚ) : ℚ :=
  let x := q * 100
  let f := ⌊x⌋
  let r := x - (f : ℚ)
  let n : ℤ :=
    if r < 1/2 then f
    else if 1/2 < r then f + 1
    else if 2 ∣ f then f else f + 1
  (n : ℚ) / 100

/-- The missing days of one entity: the report-month days without a backup,
in calendar-loop order (lines 598–601). -/
def missingDaysOf (allDays : List ℕ) (rows : List (ℕ × String)) : List ℕ :=
  allDays.filter (fun d => !((rows.map (·.1)).contains d))

/-- The raw status of the first table row of the entity on day `d`
(`vm_df[...][status_col].values[0]`). -/
def firstEventStatus (rows : List (ℕ × String)) (d : ℕ) : Option String :=
  ((rows.filter (fun r => r.1 == d)).map (·.2)).head?

/-- The spec's recoverability condition for a missing day `d`: `d+1` is among
the entity's event dates and the event on `d+1` has a successful outcome. -/
def specRecoverable (rows : List (ℕ × String)) (d : ℕ) : Bool :=
  (rows.map (·.1)).contains (d + 1) &&
    (firstEventStatus rows (d + 1) == some "Success")

/-- Per-entity analysis record (the per-VM dict built at lines 648–661;
the serialized failed-row dicts are modelled as the raw failed rows). -/
structure VMStats where
  total_backups : ℕ
  successful_backups : ℕ
  failed_backups : ℕ
  warning_backups : ℕ
  success_rate : ℚ
  missing_days_total : ℕ
  missing_days_recoverable : ℕ
  missing_days_critical : ℕ
  missing_days_list : List ℕ
  failed_backup_rows : List (ℕ × String)
  score : ℚ
deriving DecidableEq, Repr

/-- The per-VM loop body of `_analyze_per_vm` (lines 591–661) for one entity:
missing days, status counts, next-day recoverability and the derived
critical count. -/
def analyzeVM (allDays : List ℕ) (rows : List (ℕ × String)) : VMStats :=
  let vmBackupDates := rows.map (·.1)
  let missingDays := missingDaysOf allDays rows
  let totalBackups := rows.length
  let successful := rows.countP (fun r => r.2 == "Success")
  let failed := rows.countP (fun r => r.2 == "Failed")
  let warning := rows.countP (fun r => r.2 == "Warning")
  let successRate : ℚ :=
    if 0 < totalBackups then (successful : ℚ) / (totalBackups : ℚ) * 100 else 0
  let failedRows := rows.filter (fun r => r.2 == "Failed")
  let recoverable := missingDays.countP (fun d =>
    vmBackupDates.contains (d + 1) &&
      (match (rows.filter (fun r => r.1 == d + 1)).map (·.2) with
       | s :: _ => s == "Success"
       | [] => false))
  let actualMissing := missingDays.length - recoverable
  { total_backups := totalBackups
    successful_backups := successful
    failed_backups := failed
    warning_backups := warning
    success_rate := roundQ2 successRate
    missing_days_total := missingDays.length
    missing_days_recoverable := recoverable
    missing_days_critical := actualMissing
    missing_days_list := missingDays.insertionSort (· ≤ ·)
    failed_backup_rows := failedRows
    score := roundQ2 successRate }

/-- The scenario month of Claim C2: a 30-day month, days 1..30. -/
def scenarioDays : List ℕ :=
  (List.range 30).map (· + 1)

/-- The scenario entity: a successful event on every day except day 15. -/
def scenarioRows : List (ℕ × String) :=
  (scenarioDays.filter (fun d => d ≠ 15)).map (fun d => (d, "Success"))

lemma head_match_eq_head? (l : List String) :
    (match l with
     | s :: _ => s == "Success"
     | [] => false) = (l.head? == some "Success") := by
  cases l <;> simp

/-- Claim C2: in the per-entity timeline-gap analysis a missing day `d` of
the target month counts as recoverable exactly when `d+1` is among the
entity's event dates and the (first) event on `d+1` has the successful raw
outcome, and otherwise as critical; for an entity with events on every day of
a 30-day month except day 15, where day 16 has a successful event, the
result is missing_total = 1, missing_recoverable = 1, missing_critical = 0. -/
theorem claim_C2 (allDays : List ℕ) (rows : List (ℕ × String)) :
    ((analyzeVM allDays rows).missing_days_recoverable
        = (missingDaysOf allDays rows).countP (specRecoverable rows) ∧
     (analyzeVM allDays rows).missing_days_critical
        = (missingDaysOf allDays rows).length
            - (missingDaysOf allDays rows).countP (specRecoverable rows)) ∧
    ((analyzeVM scenarioDays scenarioRows).missing_days_total = 1 ∧
     (analyzeVM scenarioDays scenarioRows).missing_days_recoverable = 1 ∧
     (analyzeVM scenarioDays scenarioRows).missing_days_critical = 0) := by
  have hpred : ∀ d : ℕ,
      ((rows.map (·.1)).contains (d + 1) &&
        (match (rows.filter (fun r => r.1 == d + 1)).map (·.2) with
         | s :: _ => s == "Success"
         | [] => false)) = specRecoverable rows d := by
    intro d
    rw [head_match_eq_head?, specRecoverable, firstEventStatus]
  constructor
  · constructor
    · simp only [analyzeVM]
      exact List.countP_congr (fun d _ => by rw [hpred d])
    · simp only [analyzeVM]
      rw [List.countP_congr (fun d _ => by rw [hpred d])]
  · refine ⟨by decide, by decide, by decide⟩

/-- Claim C3: for every entity analysed by the timeline-gap analysis,
missing_days_total = missing_days_recoverable + missing_days_critical. -/
theorem claim_C3 (allDays : List ℕ) (rows : List (ℕ × String)) :
    (analyzeVM allDays rows).missing_days_total
      = (analyzeVM allDays rows).missing_days_recoverable
        + (analyzeVM allDays rows).missing_days_critical := by
  simp only [analyzeVM]
  have h := List.countP_le_length
    (p := fun d =>
      ((rows.map (·.1)).contains (d + 1) &&
        (match (rows.filter (fun r => r.1 == d + 1)).map (·.2) with
         | s :: _ => s == "Success"
         | [] => false)))
    (l := missingDaysOf allDays rows)
  omega

/-! ## In-place mutation of the input table (Claim C10)

`_analyze_per_vm` writes helper columns through its `df` parameter
(`df['_parsed_date'] = ...`, lines 555–562) before taking copies, while
`_map_columns` only copies and renames.  A pandas column is either
datetime64-typed (optional day numbers) or object-typed (optional strings);
`setCol` is pandas `df[name] = column` (replace an existing label, else
append at the end). -/

/-- A pandas column payload with its dtype. -/
inductive Coldata where
  | dt (cells : List (Option ℕ))
  | obj (cells : List (Option String))
deriving DecidableEq, Repr

/-- pandas `df[name] = column`. -/
def setCol (df : List (String × Coldata)) (nm : String) (cd : Coldata) :
    List (String × Coldata) :=
  if df.any (fun c => c.1 == nm) then
    df.map (fun c => if c.1 == nm then (c.1, cd) else c)
  else df ++ [(nm, cd)]

/-- pandas `df[name]` (first column with the label). -/
def getCol (df : List (String × Coldata)) (nm : String) : Option Coldata :=
  (List.find? (fun c => c.1 == nm) df).map (·.2)

/-- The column-search loop of `_analyze_per_vm` (lines 539–546): an
`elif`-chain over the lowered, stripped names, later matches overwriting
earlier ones; returns (vm_col, start_time_col, status_col). -/
def findAnalysisCols (names : List String) :
    Option String × Option String × Option String :=
  names.foldl (fun st col =>
    let cl := String.mk (trimWs (col.toList.map asciiLower))
    if strContains cl "vm" && strContains cl "name" then
      (some col, st.2.1, st.2.2)
    else if strContains cl "start" && strContains cl "time" then
      (st.1, some col, st.2.2)
    else if strContains cl "status" then (st.1, st.2.1, some col)
    else st) (none, none, none)

/-- Gregorian leap year. -/
def isLeapYear (y : ℕ) : Bool :=
  (y % 4 == 0 && y % 100 != 0) || y % 400 == 0

/-- Days in a civil month. -/
def daysInMonth (y m : ℕ) : ℕ :=
  if m = 2 then (if isLeapYear y then 29 else 28)
  else if m = 4 ∨ m = 6 ∨ m = 9 ∨ m = 11 then 30
  else 31

/-- Absolute day number of a civil date (days since the era base), so that
adding 1 moves to the next calendar day. -/
def daysFromCivil (y m d : ℕ) : ℕ :=
  let y' := if m ≤ 2 then y - 1 else y
  let era := y' / 400
  let yoe := y' % 400
  let mp := (m + 9) % 12
  let doy := (153 * mp + 2) / 5 + (d - 1)
  let doe := yoe * 365 + yoe / 4 - yoe / 100 + doy
  era * 146097 + doe

/-- `str.extract(r'(\d{2}/\d{2}/\d{4})')`: the leftmost substring of shape
dd/dd/dddd, `none` when there is no match. -/
def extractDatePat (s : String) : Option String :=
  s.toList.tails.findSome? (fun t =>
    match t with
    | c1 :: c2 :: '/' :: c3 :: c4 :: '/' :: c5 :: c6 :: c7 :: c8 :: _ =>
        if [c1, c2, c3, c4, c5, c6, c7, c8].all Char.isDigit then
          some (String.mk [c1, c2, '/', c3, c4, '/', c5, c6, c7, c8])
        else none
    | _ => none)

/-- `pd.to_datetime(x, format='%d/%m/%Y', errors='coerce')` on one cell:
`none` (NaT) unless the string is a valid dd/mm/yyyy civil date. -/
def parseDDMMYYYYStr (s : String) : Option ℕ :=
  match s.toList with
  | [d1, d2, '/', m1, m2, '/', y1, y2, y3, y4] =>
      if [d1, d2, m1, m2, y1, y2, y3, y4].all Char.isDigit then
        let d := natOfDigits [d1, d2]
        let m := natOfDigits [m1, m2]
        let y := natOfDigits [y1, y2, y3, y4]
        if 1 ≤ m ∧ m ≤ 12 ∧ 1 ≤ d ∧ d ≤ daysInMonth y m ∧ 1 ≤ y then
          some (daysFromCivil y m d)
        else none
      else none
  | _ => none

/-- The state of the caller's table after `_analyze_per_vm` returns: lines
555–562 are the only statements writing through the input reference (every
later step works on `.copy()` frames).  When the three required columns are
not all found the method returns before touching the table. -/
def analyzePerVMState (df : List (String × Coldata)) : List (String × Coldata) :=
  match findAnalysisCols (df.map (·.1)) with
  | (some _, some st, some _) =>
      match getCol df st with
      | some (.dt cells) => setCol df "_parsed_date" (.dt cells)
      | some (.obj cells) =>
          let dcells := cells.map (fun oc => oc.bind extractDatePat)
          let df1 := setCol df "_date" (.obj dcells)
          let parsed := dcells.map (fun oc => oc.bind parseDDMMYYYYStr)
          setCol df1 "_parsed_date" (.dt parsed)
      | none => df
  | _ => df

/-- `_map_columns` as a state transformer: the first component is the
caller's table after the call (never written through), the second the
renamed copy it returns. -/
def mapColumnsState {α : Type} (fm : FieldMappings) (thr : ℚ)
    (df : List (String × α)) : List (String × α) × List (String × α) :=
  (df, mapColumns fm thr df)

/-- A concrete Veeam-like table: one VM row with a datetime start time. -/
def mutationExampleDF : List (String × Coldata) :=
  [("VM Name", .obj [some "vm1"]),
   ("Start Time", .dt [some 100]),
   ("Status", .obj [some "Success"])]

/-- Counterexample to Claim C10 as stated: `_analyze_per_vm` appends a
`_parsed_date` helper column to the caller's table, so the timeline analysis
does not leave the input table's columns as it received them. -/
theorem claim_C10_counterexample :
    analyzePerVMState mutationExampleDF
      = mutationExampleDF ++ [("_parsed_date", Coldata.dt [some 100])] ∧
    analyzePerVMState mutationExampleDF ≠ mutationExampleDF := by
  refine ⟨by decide, by decide⟩

/-- Claim C10 (amended): the Schema Mapper returns a renamed copy and leaves
the caller's table unchanged, but the per-entity timeline analysis writes
through its input: whenever it finds the VM/start-time/status columns and
the start-time column is datetime-typed, it appends (or overwrites) a
`_parsed_date` column on the caller's table. -/
theorem claim_C10 {α : Type} (fm : FieldMappings) (thr : ℚ)
    (dfα : List (String × α)) (df : List (String × Coldata))
    (vm st sc : String) (cells : List (Option ℕ))
    (hcols : findAnalysisCols (df.map (·.1)) = (some vm, some st, some sc))
    (hget : getCol df st = some (.dt cells))
    (hfresh : df.any (fun c => c.1 == "_parsed_date") = false) :
    (mapColumnsState fm thr dfα).1 = dfα ∧
    analyzePerVMState df = df ++ [("_parsed_date", Coldata.dt cells)] := by
  refine ⟨rfl, ?_⟩
  rw [analyzePerVMState, hcols]
  simp only [hget, setCol, hfresh]
  simp

/-- Witness for Claim C10 (amended): the theorem applied to the concrete
Veeam-like table. -/
theorem claim_C10_witness :
    findAnalysisCols (mutationExampleDF.map (·.1))
      = (some "VM Name", some "Start Time", some "Status") ∧
    getCol mutationExampleDF "Start Time" = some (.dt [some 100]) ∧
    mutationExampleDF.any (fun c => c.1 == "_parsed_date") = false ∧
    ((mapColumnsState ([] : FieldMappings) 0
        ([] : List (String × ℕ))).1 = ([] : List (String × ℕ)) ∧
     analyzePerVMState mutationExampleDF
       = mutationExampleDF ++ [("_parsed_date", Coldata.dt [some 100])]) := by
  refine ⟨by decide, by decide, by decide, ?_⟩
  exact claim_C10 ([] : FieldMappings) 0 ([] : List (String × ℕ))
    mutationExampleDF "VM Name" "Start Time" "Status" [some 100]
    (by decide) (by decide) (by decide)
